import Mathlib

/-!
Verification of the patient-to-trial matching and ranking pipeline of the
TurmerikTakeHome repository.

The development shallowly embeds the relevant Python source:
* `src/src/findTrialsByChroma.py`: `match_patient_to_trials` (structured
  demographic filter over the SQLite store) and `rank_matched_trials`
  (semantic ranking over the ChromaDB index with a cosine-similarity
  fallback path).
* `src/src/parseXMLs.py`: `generate_semantic_search_query` (the query
  synthesizer).

Modelling conventions:
* Python `None` / missing dict keys become `Option`.
* Python numbers stored in trial rows and patient ages become `Int`;
  floating-point distances and similarity scores are modelled as exact
  rationals (`ℚ`), which contain every IEEE double value.
* The external collaborators (SQLite, ChromaDB, the sentence-transformer
  embedding model and sklearn's `cosine_similarity`) are modelled as an
  explicit environment (`RankEnv`) recording the outcome of each external
  call; a `none` outcome models the call raising an exception.
* Python's in-place mutation of the candidate dictionaries is modelled by
  state passing: the ranker returns both the final contents of the
  caller's candidate list and the list it returns.
* Python's stable `sorted(..., key=..., reverse=True)` is modelled by a
  stable insertion sort (`sortBy`) on the inverted comparison; stable
  sorts over the same total preorder agree pointwise.
-/

/-! ### Generic string and list helpers

Python string primitives (`in`, `split`, `strip`, `lower`, comparison)
are modelled at the level of character lists so that every definition
reduces inside the kernel. Python compares strings lexicographically by
code point.
-/

/-- Lexicographic comparison of character lists by code point,
modelling Python's `<=` on strings. -/
def lexLe : List Char → List Char → Bool
  | [], _ => true
  | _ :: _, [] => false
  | a :: as, b :: bs =>
    if a.toNat < b.toNat then true
    else if b.toNat < a.toNat then false
    else lexLe as bs

/-- Python `s <= t` on strings. -/
def strLe (a b : String) : Bool := lexLe a.toList b.toList

/-- Characters stripped by Python's `str.strip()`. -/
def isPySpace (c : Char) : Bool :=
  c = ' ' || c = '\t' || c = '\n' || c = '\r' || c = '\x0b' || c = '\x0c'

/-- Python `str.strip()`. -/
def pyStrip (s : String) : String :=
  String.mk (((s.toList.dropWhile isPySpace).reverse.dropWhile isPySpace).reverse)

/-- ASCII lowercasing, modelling Python `str.lower()` on the ASCII
vocabulary used by the clinical-note scan. -/
def pyLower (s : String) : String := String.mk (s.toList.map Char.toLower)

/-- Python `c in s` for a single character. -/
def strContainsChar (s : String) (c : Char) : Bool := s.toList.contains c

/-- Split a character list at every occurrence of a separator character. -/
def splitChars (sep : Char) : List Char → List (List Char)
  | [] => [[]]
  | c :: cs =>
    match splitChars sep cs with
    | [] => if c = sep then [[], [c]] else [[c]]
    | g :: gs => if c = sep then [] :: g :: gs else (c :: g) :: gs

/-- Python `s.split("-")` (single-character separator). -/
def pySplitOn (sep : Char) (s : String) : List String :=
  (splitChars sep s.toList).map String.mk

/-- Python `re.split(r'[.!?]', s)`: split at every sentence terminator. -/
def splitSentences (s : String) : List String :=
  (s.toList.foldr
    (fun c acc =>
      if c = '.' || c = '!' || c = '?' then [] :: acc
      else
        match acc with
        | [] => [[c]]
        | g :: gs => (c :: g) :: gs)
    [[]]).map String.mk

/-- Python `pat in s` (substring containment). -/
def containsSubstr (s pat : String) : Bool :=
  s.toList.tails.any (fun t => pat.toList.isPrefixOf t)

/-- Insert an element into a list sorted by `le`, before the first
element it relates to. -/
def insertBy (le : α → α → Bool) (a : α) : List α → List α
  | [] => [a]
  | b :: bs => if le a b then a :: b :: bs else b :: insertBy le a bs

/-- Stable insertion sort: the model of Python's stable `sorted`.
With `le x y := key y ≤ key x` this is exactly
`sorted(l, key=key, reverse=True)`. -/
def sortBy (le : α → α → Bool) : List α → List α
  | [] => []
  | a :: as => insertBy le a (sortBy le as)

theorem perm_insertBy (le : α → α → Bool) (a : α) (l : List α) :
    (insertBy le a l).Perm (a :: l) := by
  induction l with
  | nil => simp [insertBy]
  | cons b bs ih =>
    simp only [insertBy]
    by_cases h : le a b = true
    · simp [h]
    · simp only [h]
      exact (List.Perm.cons b ih).trans (List.Perm.swap a b bs)

theorem perm_sortBy (le : α → α → Bool) (l : List α) :
    (sortBy le l).Perm l := by
  induction l with
  | nil => simp [sortBy]
  | cons a as ih =>
    exact (perm_insertBy le a (sortBy le as)).trans (List.Perm.cons a ih)

theorem pairwise_insertBy (le : α → α → Bool)
    (htot : ∀ x y, le x y || le y x)
    (htrans : ∀ x y z, le x y → le y z → le x z)
    (a : α) (l : List α)
    (hl : l.Pairwise (fun x y => le x y = true)) :
    (insertBy le a l).Pairwise (fun x y => le x y = true) := by
  induction l with
  | nil => simp [insertBy]
  | cons b bs ih =>
    rcases hl with _ | ⟨hb, hbs⟩
    simp only [insertBy]
    by_cases h : le a b = true
    · simp only [h, if_true]
      refine List.Pairwise.cons ?_ (List.Pairwise.cons hb hbs)
      intro x hx
      rcases List.mem_cons.mp hx with h1 | h2
      · rw [h1]; exact h
      · exact htrans a b x h (hb x h2)
    · have hba : le b a = true := by
        have := htot a b
        simpa [h] using this
      simp only [h, if_false]
      refine List.Pairwise.cons ?_ (ih hbs)
      intro x hx
      rcases List.mem_cons.mp ((perm_insertBy le a bs).mem_iff.mp hx) with h1 | h2
      · rw [h1]; exact hba
      · exact hb x h2

theorem pairwise_sortBy (le : α → α → Bool)
    (htot : ∀ x y, le x y || le y x)
    (htrans : ∀ x y z, le x y → le y z → le x z)
    (l : List α) :
    (sortBy le l).Pairwise (fun x y => le x y = true) := by
  induction l with
  | nil => simp [sortBy]
  | cons a as ih => exact pairwise_insertBy le htot htrans a (sortBy le as) ih

/-! ### Python `float()` on strings

`parseFloat` models the Python builtin `float(str)`: optional
surrounding whitespace and sign, then either `inf` / `infinity` /
`nan` (case-insensitive) or a decimal literal — digits with an
optional fractional part, an optional `e`/`E` exponent part, and
PEP-515 underscore separators (each underscore directly between two
digits). Any other input yields `none`, modelling the `ValueError`
that the source catches. Finite values are kept as exact rationals
rather than rounded to IEEE doubles: decimal-to-double rounding is
monotone, so the order comparisons the source performs agree with this
model except when two distinct literals round to the very same double
(17-plus significant digits), which the model idealises away; likewise
literals beyond the double range stay finite here instead of becoming
infinite. -/

/-- The value of a Python `float(...)` call: IEEE doubles have NaN and
signed infinities besides finite values. -/
inductive PyFloat where
  | nan : PyFloat
  | inf : Bool → PyFloat
  | finite : ℚ → PyFloat
deriving DecidableEq, Repr

/-- IEEE `<` on floats: NaN compares false with everything, `-inf` is
below and `+inf` above every finite value. -/
def pyLt : PyFloat → PyFloat → Bool
  | .nan, _ => false
  | _, .nan => false
  | .inf b1, .inf b2 => !b1 && b2
  | .inf b1, .finite _ => !b1
  | .finite _, .inf b2 => b2
  | .finite q1, .finite q2 => decide (q1 < q2)

/-- Value of a digit list read in base 10. -/
def digitsVal (cs : List Char) : Nat :=
  cs.foldl (fun n c => n * 10 + (c.toNat - 48)) 0

/-- PEP-515: every underscore must stand directly between two digits.
The first argument is the preceding character, if any. -/
def underscoresOkFrom : Option Char → List Char → Bool
  | _, [] => true
  | prev, '_' :: rest =>
    (match prev with
     | some d => d.isDigit
     | none => false) &&
    (match rest with
     | d :: _ => d.isDigit
     | [] => false) &&
    underscoresOkFrom (some '_') rest
  | _, c :: rest => underscoresOkFrom (some c) rest

/-- Underscore well-formedness of a whole numeric token. -/
def underscoresOk (cs : List Char) : Bool := underscoresOkFrom none cs

/-- Parse the optional `e`/`E` exponent suffix; `[]` means exponent 0,
anything else must be `e`/`E`, an optional sign and a nonempty digit
run. -/
def parseExpPart : List Char → Option Int
  | [] => some 0
  | c :: r =>
    if c = 'e' || c = 'E' then
      match r with
      | '+' :: ds =>
        if !ds.isEmpty && ds.all Char.isDigit then some (digitsVal ds : Int)
        else none
      | '-' :: ds =>
        if !ds.isEmpty && ds.all Char.isDigit then some (-(digitsVal ds : Int))
        else none
      | ds =>
        if !ds.isEmpty && ds.all Char.isDigit then some (digitsVal ds : Int)
        else none
    else none

/-- Parse an unsigned decimal literal
`digits [. digits] [(e|E) [sign] digits]` (after underscore checking
and removal); at least one mantissa digit is required. -/
def parseUnsigned (cs : List Char) : Option ℚ :=
  if underscoresOk cs = false then none
  else
    let ds := cs.filter (fun c => c ≠ '_')
    let intPart := ds.takeWhile Char.isDigit
    let rest1 := ds.dropWhile Char.isDigit
    let fracPart :=
      match rest1 with
      | '.' :: r => r.takeWhile Char.isDigit
      | _ => []
    let rest2 :=
      match rest1 with
      | '.' :: r => r.dropWhile Char.isDigit
      | _ => rest1
    if intPart.isEmpty && fracPart.isEmpty then none
    else
      match parseExpPart rest2 with
      | none => none
      | some e =>
        some (((digitsVal intPart : ℚ) +
          (digitsVal fracPart : ℚ) / ((10 : ℚ) ^ fracPart.length)) *
          (10 : ℚ) ^ e)

/-- The body after the optional sign: the special spellings accepted by
CPython, else a decimal literal. The sign is ignored for `nan`. -/
def parseSigned (cs : List Char) (pos : Bool) : Option PyFloat :=
  let low := cs.map Char.toLower
  if low = ['i', 'n', 'f'] || low = ['i', 'n', 'f', 'i', 'n', 'i', 't', 'y'] then
    some (PyFloat.inf pos)
  else if low = ['n', 'a', 'n'] then some PyFloat.nan
  else (parseUnsigned cs).map (fun q => PyFloat.finite (if pos then q else -q))

/-- Python `float(s)`. -/
def parseFloat (s : String) : Option PyFloat :=
  match (pyStrip s).toList with
  | '+' :: cs => parseSigned cs true
  | '-' :: cs => parseSigned cs false
  | cs => parseSigned cs true

/-! ### Patient data model

The patient record produced by `parse_ccda_file` is a Python dict; the
fields consumed by the core are modelled as records. A `none` field
models a missing dict key (or a `None` value). -/

/-- The `demographics` sub-dictionary fields consumed by the core. -/
structure Demographics where
  age : Option Int
  gender : Option String
deriving DecidableEq, Repr

/-- An entry of `patient_data["conditions"]`. -/
structure ConditionRec where
  name : Option String
  onsetDate : Option String
deriving DecidableEq, Repr

/-- An entry of `patient_data["medications"]`. -/
structure MedicationRec where
  name : Option String
deriving DecidableEq, Repr

/-- An entry of `patient_data["labs"]`. -/
structure LabRec where
  name : Option String
  value : Option String
  unitName : Option String
  referenceRange : Option String
deriving DecidableEq, Repr

/-- An entry of `patient_data["procedures"]`. -/
structure ProcedureRec where
  name : Option String
  date : Option String
deriving DecidableEq, Repr

/-- An entry of `patient_data["clinicalNotes"]`. -/
structure NoteRec where
  noteType : Option String
  date : Option String
  content : Option String
deriving DecidableEq, Repr

/-- The parsed patient record. `demographics = none` models a missing or
empty (falsy) demographics dict. `key_clinical_info_query = some q`
models `patient_data["key_clinical_info"]["semantic_search_query"]`
being present. -/
structure PatientData where
  demographics : Option Demographics
  conditions : List ConditionRec
  medications : List MedicationRec
  labs : List LabRec
  procedures : List ProcedureRec
  clinicalNotes : List NoteRec
  key_clinical_info_query : Option String
deriving DecidableEq, Repr

/-- Python truthiness of an optional integer (`0` and `None` are falsy). -/
def truthyInt : Option Int → Bool
  | none => false
  | some a => a ≠ 0

/-- Python truthiness of an optional string (`""` and `None` are falsy). -/
def truthyStr : Option String → Bool
  | none => false
  | some s => s ≠ ""

/-! ### Query Synthesizer — `generate_semantic_search_query`
(`src/src/parseXMLs.py`, lines 660-805). Each clause builder returns
`none` when the source appends nothing to `query_parts`. -/

/-- Demographic clause (lines 672-690). -/
def demographicClause : Option Demographics → Option String
  | none => none
  | some d =>
    let age := d.age
    let gender := d.gender
    if truthyInt age && truthyStr gender then
      if gender = some "M" then
        some (toString (age.getD 0) ++ "-year-old male patient")
      else if gender = some "F" then
        some (toString (age.getD 0) ++ "-year-old female patient")
      else
        some (toString (age.getD 0) ++ "-year-old patient")
    else if truthyInt age then
      some (toString (age.getD 0) ++ "-year-old patient")
    else if truthyStr gender then
      if gender = some "M" then some "Male patient"
      else if gender = some "F" then some "Female patient"
      else none
    else none

/-- Join names as `"A, B and C"` (lines 704-708 / 715-719). -/
def joinWithAnd (names : List String) : String :=
  match names with
  | [] => ""
  | [n] => n
  | ns => String.intercalate ", " ns.dropLast ++ " and " ++ ns.getLastD ""

/-- Condition clause (lines 692-708): up to 3 most recent named
conditions, sorted by onset date descending (stable). -/
def conditionClause (conditions : List ConditionRec) : Option String :=
  if conditions.isEmpty then none
  else
    let sorted_conditions :=
      sortBy (fun a b => strLe (b.onsetDate.getD "") (a.onsetDate.getD ""))
        (conditions.filter (fun c => truthyStr c.name))
    let condition_names := (sorted_conditions.take 3).map (fun c => c.name.getD "")
    if condition_names.isEmpty then none
    else some ("diagnosed with " ++ joinWithAnd condition_names)

/-- Medication clause (lines 710-719): first 3 medications, named ones. -/
def medicationClause (medications : List MedicationRec) : Option String :=
  if medications.isEmpty then none
  else
    let med_names := (medications.take 3).filterMap
      (fun m => if truthyStr m.name then m.name else none)
    if med_names.isEmpty then none
    else some ("currently taking " ++ joinWithAnd med_names)

/-- One lab's contribution to `abnormal_labs` (lines 725-743): requires
the `name` and `value` keys, a reference range containing `-`, and all
three numbers to parse; any parse failure is the caught `except` branch. -/
def abnormalEntry (lab : LabRec) : Option String :=
  match lab.name, lab.value with
  | some lab_name, some lab_value =>
    let lab_unit := lab.unitName.getD ""
    let ref_range := lab.referenceRange.getD ""
    if ref_range ≠ "" && strContainsChar ref_range '-' then
      match pySplitOn '-' ref_range with
      | p0 :: p1 :: _ =>
        match parseFloat (pyStrip p0), parseFloat (pyStrip p1), parseFloat lab_value with
        | some low, some high, some value =>
          if pyLt value low || pyLt high value then
            some (lab_name ++ " " ++ lab_value ++ " " ++ lab_unit)
          else none
        | _, _, _ => none
      | _ => none
    else none
  | _, _ => none

/-- The collected abnormal-lab strings (lines 722-743). -/
def abnormal_labs (labs : List LabRec) : List String :=
  labs.filterMap abnormalEntry

/-- Abnormal-lab clause (lines 745-747): included only when 1 or 2
abnormal labs exist. -/
def abnormalClause (labs : List LabRec) : Option String :=
  let al := abnormal_labs labs
  if !al.isEmpty && al.length ≤ 2 then
    some ("with abnormal " ++ String.intercalate " and " al)
  else none

/-- Procedure clause (lines 749-765): up to 2 most recent named
procedures, joined with `" and "`. -/
def procedureClause (procedures : List ProcedureRec) : Option String :=
  if procedures.isEmpty then none
  else
    let sorted_procedures :=
      sortBy (fun a b => strLe (b.date.getD "") (a.date.getD ""))
        (procedures.filter (fun p => truthyStr p.name))
    let procedure_names := (sorted_procedures.take 2).map (fun p => p.name.getD "")
    match procedure_names with
    | [] => none
    | [n] => some ("underwent " ++ n)
    | ns => some ("underwent " ++ String.intercalate " and " ns)

/-- The fixed vocabulary of clinically salient terms (lines 782-784). -/
def important_terms : List String :=
  ["recommended", "referred", "indicated", "suspected",
   "diagnosed", "assessment", "plan", "follow-up", "risk",
   "monitoring", "considering", "evaluated", "eligible"]

/-- Clinical-note clauses (lines 767-799): from the most recent
Assessment/Plan note, up to 2 short salient sentences. -/
def noteClauses (clinicalNotes : List NoteRec) : List String :=
  let assessment_notes := clinicalNotes.filter
    (fun n => match n.noteType with
      | some ty => containsSubstr ty "Assessment" || containsSubstr ty "Plan"
      | none => false)
  if assessment_notes.isEmpty then []
  else
    match sortBy (fun a b => strLe (b.date.getD "") (a.date.getD "")) assessment_notes with
    | [] => []
    | latest_note :: _ =>
      let note_content := latest_note.content.getD ""
      let sentences := splitSentences note_content
      let relevant_sentences := sentences.filterMap (fun s =>
        let s := pyStrip s
        if s ≠ "" && important_terms.any (fun t => containsSubstr (pyLower s) t)
            && s.length < 100 then
          some s
        else none)
      (relevant_sentences.take 2).map (fun s => "note: " ++ s)

/-- The `query_parts` list accumulated by the source, in order. -/
def queryParts (p : PatientData) : List String :=
  (demographicClause p.demographics).toList ++
  (conditionClause p.conditions).toList ++
  (medicationClause p.medications).toList ++
  (abnormalClause p.labs).toList ++
  (procedureClause p.procedures).toList ++
  noteClauses p.clinicalNotes

/-- `generate_semantic_search_query` (lines 660-805). -/
def generate_semantic_search_query (p : PatientData) : String :=
  let parts := queryParts p
  if parts.isEmpty then "patient requires clinical trial matching"
  else String.intercalate " " parts

/-! ### Trial records and the Structured Filter —
`match_patient_to_trials` (`src/src/findTrialsByChroma.py`, lines
17-163).

A `Trial` models one processed row of the optimized query: the `trials`
table columns used by the pipeline together with its aggregated
condition and intervention lists (`trial_id` is UNIQUE in the store, so
one row per trial), plus the `semantic_score` key that the ranker may
later attach (`none` = key absent). The relational store is modelled as
`Option (List Trial)`: `none` models a missing database file. -/

structure Trial where
  trial_id : String
  trial_title : String
  minimum_age : Option Int
  maximum_age : Option Int
  sex : String
  accepts_healthy_volunteers : Bool
  conditions : List String
  interventions : List String
  semantic_score : Option ℚ
deriving DecidableEq, Repr

/-- The gender mapping of lines 42-50 (`gender_mapping.get(gender)`). -/
def gender_mapping : Option String → Option String
  | some "M" => some "MALE"
  | some "F" => some "FEMALE"
  | some "Male" => some "MALE"
  | some "Female" => some "FEMALE"
  | _ => none

/-- `demographics.get('age')` (lines 35-36). -/
def patientAge (p : PatientData) : Option Int :=
  p.demographics.bind (fun d => d.age)

/-- `demographics.get('gender')` (line 37). -/
def patientGender (p : PatientData) : Option String :=
  p.demographics.bind (fun d => d.gender)

/-- `mapped_sex` (line 50). -/
def patientMappedSex (p : PatientData) : Option String :=
  gender_mapping (patientGender p)

/-- The age predicate added at lines 77-81 / 118-122: applied only when
the patient age is known (`age is not None`); NULL bounds never
exclude. -/
def ageFilter : Option Int → Trial → Bool
  | none, _ => true
  | some a, t =>
    (match t.minimum_age with
     | none => true
     | some m => m ≤ a) &&
    (match t.maximum_age with
     | none => true
     | some m => a ≤ m)

/-- The sex predicate added at lines 84-86 / 125-127: applied only when
`mapped_sex` is truthy. -/
def sexFilter : Option String → Trial → Bool
  | none, _ => true
  | some s, t => t.sex == s || t.sex == "ALL"

/-- The full WHERE clause of both the count query and the data query. -/
def trialPasses (age : Option Int) (mapped_sex : Option String) (t : Trial) : Bool :=
  ageFilter age t && sexFilter mapped_sex t

/-- `match_patient_to_trials` (lines 17-163). Returns
`(matches, total_matches)`. The count query (no LIMIT) produces
`total_matches`; the data query rows are capped by `LIMIT limit`. A
missing database file returns `([], 0)` at lines 30-32. -/
def match_patient_to_trials (db : Option (List Trial)) (p : PatientData)
    (limit : Nat) : List Trial × Nat :=
  match db with
  | none => ([], 0)
  | some trials =>
    let age := patientAge p
    let mapped_sex := patientMappedSex p
    let passing := trials.filter (trialPasses age mapped_sex)
    (passing.take limit, passing.length)

/-! ### Semantic Ranker — `rank_matched_trials`
(`src/src/findTrialsByChroma.py`, lines 165-338).

External calls are recorded in a `RankEnv`. A `none` outcome of a query
or of an embedding call models that call raising an exception. The
sentence-transformer embedding model and sklearn's `cosine_similarity`
are external collaborators; embeddings are rational vectors and the
numeric value of `cosine_similarity` is the environment's
`cosine_similarity` field applied to the two embeddings.

Mutation model: Python mutates the caller's candidate dicts in place
(`trial['semantic_score'] = ...`), and the returned list aliases those
dicts. The embedding therefore returns a pair: the final contents of
the caller's candidate list, and the returned (ranked) list, whose
entries are read from that final state. Because only the
`semantic_score` key is ever written, the dict found in `trial_dict` at
any point equals its original row with the score field replaced. -/

structure RankEnv where
  /-- `client.list_collections()` (line 191). -/
  collections : List String
  /-- whether `client.get_collection` succeeds (lines 204-212). -/
  getCollectionOk : Bool
  /-- outcome of the id-restricted query (lines 229-233):
  parallel `ids`/`distances` lists as pairs; `none` = raises. -/
  restricted : Option (List (String × ℚ))
  /-- outcome of the unrestricted query (lines 241-244 and 270-273):
  `none` = raises. -/
  unrestricted : Option (List (String × ℚ))
  /-- `embedding_function([text])[0]` (lines 309, 316): `none` = raises. -/
  embed : String → Option (List ℚ)
  /-- `cosine_similarity([q], [t])[0][0]` (line 319). -/
  cosine_similarity : List ℚ → List ℚ → ℚ

/-- The query string selection (lines 214-219): the pre-generated
`key_clinical_info` query when present, else a fresh
`generate_semantic_search_query`. -/
def rankQuery (p : PatientData) : String :=
  match p.key_clinical_info_query with
  | some q => q
  | none => generate_semantic_search_query p

/-- The `results` value after the try/except cascade of lines 224-276:
* restricted query succeeds nonempty — used as is;
* restricted succeeds empty — retry unrestricted; nonempty results are
  manually intersected with the candidate ids (lines 248-261), empty
  results are kept (and are falsy);
* any raise — the alternative plain query of lines 268-273 is used,
  unfiltered; if it raises too, `results = None`. -/
def getResults (env : RankEnv) (trial_ids : List String) :
    Option (List (String × ℚ)) :=
  match env.restricted with
  | some r =>
    if r.isEmpty then
      match env.unrestricted with
      | some u =>
        if u.isEmpty then some u
        else some (u.filter (fun pr => trial_ids.contains pr.1))
      | none => none
    else some r
  | none =>
    match env.unrestricted with
    | some u => some u
    | none => none

/-- Index of the dict object `trial_dict[id]` inside the candidate
list: Python dict construction keeps the last entry per key, so this is
the greatest index holding `id`. -/
def dictIdx : List Trial → String → Option Nat
  | [], _ => none
  | t :: ts, id =>
    match dictIdx ts id with
    | some j => some (j + 1)
    | none => if t.trial_id == id then some 0 else none

/-- The result-processing loop of lines 284-290, threading the mutable
candidate state. For each returned `(doc_id, distance)` whose id is in
`trial_dict`, the shared dict gets `semantic_score = 1.0 - distance`
and a reference to it (its index) is appended to `ranked_trials`. -/
def primaryLoop (cands0 : List Trial) :
    List (String × ℚ) → List Trial → List Trial × List Nat
  | [], st => (st, [])
  | pr :: ps, st =>
    match dictIdx cands0 pr.1 with
    | none => primaryLoop cands0 ps st
    | some i =>
      match cands0[i]? with
      | none => primaryLoop cands0 ps st
      | some t0 =>
        let st' := st.set i { t0 with semantic_score := some (1 - pr.2) }
        let rec_result := primaryLoop cands0 ps st'
        (rec_result.1, i :: rec_result.2)

/-- The `top_k` truncation of lines 295-297 / 330-332: applied only
when `top_k is not None and top_k > 0`. -/
def truncateTopK (top_k : Option Int) (l : List Trial) : List Trial :=
  match top_k with
  | some k => if 0 < k then l.take k.toNat else l
  | none => l

/-- Primary-path processing (lines 279-299). -/
def primaryProcess (cands : List Trial) (results : List (String × ℚ))
    (top_k : Option Int) : List Trial × List Trial :=
  let looped := primaryLoop cands results cands
  (looped.1, truncateTopK top_k (looped.2.filterMap (fun i => looped.1[i]?)))

/-- `f"{trial['trial_title']} {' '.join(trial['conditions'])}"`
(line 315). -/
def trialText (t : Trial) : String :=
  t.trial_title ++ " " ++ String.intercalate " " t.conditions

/-- The fallback scoring loop of lines 312-323, threading the mutable
candidate state left to right. Returns the final state and whether the
loop completed: an embedding failure at some candidate aborts the loop
there (that candidate and all later ones keep their previous state). -/
def fallbackProcess (env : RankEnv) (qEmb : List ℚ) :
    List Trial → List Trial × Bool
  | [] => ([], true)
  | t :: ts =>
    match env.embed (trialText t) with
    | none => (t :: ts, false)
    | some e =>
      let t' := { t with semantic_score := some (env.cosine_similarity qEmb e) }
      let rest := fallbackProcess env qEmb ts
      (t' :: rest.1, rest.2)

/-- The key `lambda x: x['semantic_score']` (line 326); on the sorted
list every entry carries a score. -/
def scoreKey (t : Trial) : ℚ := t.semantic_score.getD 0

/-- `sorted(ranked_trials, key=lambda x: x['semantic_score'],
reverse=True)` (line 326): stable descending sort. -/
def sortDescByScore (l : List Trial) : List Trial :=
  sortBy (fun a b => decide (scoreKey b ≤ scoreKey a)) l

/-- The fallback path (lines 300-338). A failure anywhere in the `try`
block returns the caller's list as-is (line 338) — including any
mutations already performed. -/
def fallbackRank (env : RankEnv) (query : String) (matched_trials : List Trial)
    (top_k : Option Int) : List Trial × List Trial :=
  match env.embed query with
  | none => (matched_trials, matched_trials)
  | some qEmb =>
    let processed := fallbackProcess env qEmb matched_trials
    if processed.2 then
      (processed.1, truncateTopK top_k (sortDescByScore processed.1))
    else (processed.1, processed.1)

/-- `rank_matched_trials` (lines 165-338). Returns
`(final contents of the caller's candidate list, returned list)`. -/
def rank_matched_trials (env : RankEnv) (matched_trials : List Trial)
    (p : PatientData) (top_k : Option Int) : List Trial × List Trial :=
  if matched_trials.isEmpty then (matched_trials, [])
  else if !(env.collections.contains "clinical_trials") then
    (matched_trials, matched_trials)
  else if !env.getCollectionOk then (matched_trials, matched_trials)
  else
    let trial_ids := matched_trials.map (fun t => t.trial_id)
    let query := rankQuery p
    match getResults env trial_ids with
    | some results =>
      if !results.isEmpty then primaryProcess matched_trials results top_k
      else fallbackRank env query matched_trials top_k
    | none => fallbackRank env query matched_trials top_k

/-! ### Derived predicates used by the claims -/

/-- Two trials agree on every field except possibly `semantic_score`. -/
def eqUpToScore (t t' : Trial) : Prop :=
  t'.trial_id = t.trial_id ∧ t'.trial_title = t.trial_title ∧
  t'.minimum_age = t.minimum_age ∧ t'.maximum_age = t.maximum_age ∧
  t'.sex = t.sex ∧
  t'.accepts_healthy_volunteers = t.accepts_healthy_volunteers ∧
  t'.conditions = t.conditions ∧ t'.interventions = t.interventions

instance (t t' : Trial) : Decidable (eqUpToScore t t') := by
  unfold eqUpToScore; infer_instance

/-- The returned list is in non-increasing `semantic_score` order. -/
def scoresDescending (l : List Trial) : Prop :=
  l.Pairwise (fun a b => scoreKey b ≤ scoreKey a)

instance (l : List Trial) : Decidable (scoresDescending l) := by
  unfold scoresDescending; infer_instance

/-- Every trial in the list carries a `semantic_score` key. -/
def allScored (l : List Trial) : Prop :=
  ∀ t ∈ l, t.semantic_score.isSome

instance (l : List Trial) : Decidable (allScored l) := by
  unfold allScored; exact List.decidableBAll _ l

/-- The condition of line 300: the cascade produced no usable results,
so the fallback path runs. -/
def fallbackTriggered (env : RankEnv) (trial_ids : List String) : Prop :=
  getResults env trial_ids = none ∨ getResults env trial_ids = some []

/-- Whether the fallback `try` block of lines 304-334 completes without
an exception. -/
def fallbackOk (env : RankEnv) (query : String) (cands : List Trial) : Bool :=
  match env.embed query with
  | none => false
  | some qEmb => (fallbackProcess env qEmb cands).2

/-! ### Lemmas about the embedding -/

theorem forall₂_eqUpToScore_refl (l : List Trial) :
    List.Forall₂ eqUpToScore l l := by
  induction l with
  | nil => exact List.Forall₂.nil
  | cons t ts ih =>
    exact List.Forall₂.cons ⟨rfl, rfl, rfl, rfl, rfl, rfl, rfl, rfl⟩ ih

theorem eqUpToScore_setScore (t : Trial) (s : Option ℚ) :
    eqUpToScore t { t with semantic_score := s } :=
  ⟨rfl, rfl, rfl, rfl, rfl, rfl, rfl, rfl⟩

theorem forall₂_set {R : Trial → Trial → Prop} {l₁ l₂ : List Trial}
    (h : List.Forall₂ R l₁ l₂) :
    ∀ (i : Nat) (a b : Trial), l₁[i]? = some a → R a b →
      List.Forall₂ R l₁ (l₂.set i b) := by
  induction h with
  | nil => intro i a b hget _; simp at hget
  | cons hR hrest ih =>
    intro i a b hget hab
    match i with
    | 0 =>
      simp only [List.getElem?_cons_zero, Option.some.injEq] at hget
      subst hget
      exact List.Forall₂.cons hab hrest
    | Nat.succ j =>
      simp only [List.getElem?_cons_succ] at hget
      exact List.Forall₂.cons hR (ih j _ _ hget hab)

theorem dictIdx_sound (cands : List Trial) (id : String) (i : Nat)
    (h : dictIdx cands id = some i) :
    ∃ t, cands[i]? = some t ∧ t.trial_id = id := by
  induction cands generalizing i with
  | nil => simp [dictIdx] at h
  | cons c cs ih =>
    simp only [dictIdx] at h
    match hrec : dictIdx cs id with
    | some j =>
      rw [hrec] at h
      simp only [Option.some.injEq] at h
      subst h
      obtain ⟨t, ht, hid⟩ := ih j hrec
      exact ⟨t, by simpa using ht, hid⟩
    | none =>
      rw [hrec] at h
      by_cases hc : c.trial_id == id
      · simp only [hc, if_true, Option.some.injEq] at h
        subst h
        exact ⟨c, by simp, by simpa using hc⟩
      · simp [hc] at h

theorem primaryLoop_length (cands0 : List Trial) (ps : List (String × ℚ))
    (st : List Trial) : (primaryLoop cands0 ps st).1.length = st.length := by
  induction ps generalizing st with
  | nil => rfl
  | cons pr rest ih =>
    simp only [primaryLoop]
    rcases h1 : dictIdx cands0 pr.1 with _ | i
    · simp only [h1]
      exact ih st
    · rcases h2 : cands0[i]? with _ | t0
      · simp only [h1, h2]
        exact ih st
      · simp only [h1, h2]
        simpa [List.length_set] using
          ih (st.set i { t0 with semantic_score := some (1 - pr.2) })

theorem primaryLoop_frame (cands0 : List Trial) (ps : List (String × ℚ))
    (st : List Trial) (h : List.Forall₂ eqUpToScore cands0 st) :
    List.Forall₂ eqUpToScore cands0 (primaryLoop cands0 ps st).1 := by
  induction ps generalizing st with
  | nil => exact h
  | cons pr rest ih =>
    simp only [primaryLoop]
    rcases h1 : dictIdx cands0 pr.1 with _ | i
    · simp only [h1]
      exact ih st h
    · rcases h2 : cands0[i]? with _ | t0
      · simp only [h1, h2]
        exact ih st h
      · simp only [h1, h2]
        exact ih _ (forall₂_set h i t0 _ h2 (eqUpToScore_setScore t0 _))

theorem primaryLoop_untouched (cands0 : List Trial) (ps : List (String × ℚ))
    (st : List Trial) (i : Nat)
    (h : ∀ pr ∈ ps, dictIdx cands0 pr.1 ≠ some i) :
    ((primaryLoop cands0 ps st).1)[i]? = st[i]? := by
  induction ps generalizing st with
  | nil => rfl
  | cons pr rest ih =>
    simp only [primaryLoop]
    have hhd : dictIdx cands0 pr.1 ≠ some i := h pr (List.mem_cons_self pr rest)
    have htl : ∀ pr' ∈ rest, dictIdx cands0 pr'.1 ≠ some i :=
      fun pr' hm => h pr' (List.mem_cons_of_mem pr hm)
    rcases h1 : dictIdx cands0 pr.1 with _ | j
    · simp only [h1]
      exact ih st htl
    · rcases h2 : cands0[j]? with _ | t0
      · simp only [h1, h2]
        exact ih st htl
      · simp only [h1, h2]
        have hji : j ≠ i := by
          intro hji
          exact hhd (by rw [h1, hji])
        rw [ih _ htl]
        exact List.getElem?_set_ne hji

/-- The value each processed result pair contributes to the returned
ranked list. -/
def rankedEntry (cands0 : List Trial) (pr : String × ℚ) : Option Trial :=
  match dictIdx cands0 pr.1 with
  | none => none
  | some i =>
    match cands0[i]? with
    | none => none
    | some t0 => some { t0 with semantic_score := some (1 - pr.2) }

theorem primaryLoop_char (cands0 : List Trial) (ps : List (String × ℚ))
    (st : List Trial)
    (hnodup : (ps.map Prod.fst).Nodup)
    (hlen : st.length = cands0.length) :
    ((primaryLoop cands0 ps st).2).filterMap
        (fun i => ((primaryLoop cands0 ps st).1)[i]?) =
      ps.filterMap (rankedEntry cands0) := by
  induction ps generalizing st with
  | nil => rfl
  | cons pr rest ih =>
    simp only [List.map_cons, List.nodup_cons] at hnodup
    obtain ⟨hne, hnodup'⟩ := hnodup
    simp only [primaryLoop, List.filterMap_cons, rankedEntry]
    rcases h1 : dictIdx cands0 pr.1 with _ | i
    · simp only [h1]
      simpa [rankedEntry] using ih st hnodup' hlen
    · obtain ⟨t0, ht0, hid⟩ := dictIdx_sound cands0 pr.1 i h1
      simp only [h1, ht0]
      have hlt : i < st.length := by
        rw [hlen]
        exact (List.getElem?_eq_some_iff.mp ht0).1
      have hset : (st.set i { t0 with semantic_score := some (1 - pr.2) }).length
          = cands0.length := by rw [List.length_set, hlen]
      have huntouched : ∀ pr' ∈ rest, dictIdx cands0 pr'.1 ≠ some i := by
        intro pr' hm hcon
        obtain ⟨t', ht', hid'⟩ := dictIdx_sound cands0 pr'.1 i hcon
        rw [ht0] at ht'
        have heq : t0 = t' := by simpa using ht'
        rw [← heq] at hid'
        rw [hid] at hid'
        rw [hid'] at hne
        exact hne (List.mem_map_of_mem Prod.fst hm)
      simp only [List.filterMap_cons]
      rw [primaryLoop_untouched cands0 rest _ i huntouched,
        List.getElem?_set_self hlt]
      rw [ih _ hnodup' hset]

theorem pairwise_filterMap_of_pairwise {α β : Type} {S : α → α → Prop}
    {T : β → β → Prop} (f : α → Option β) {l : List α}
    (hl : l.Pairwise S)
    (hf : ∀ a b, S a b → ∀ x, f a = some x → ∀ y, f b = some y → T x y) :
    (l.filterMap f).Pairwise T := by
  induction l with
  | nil => exact List.Pairwise.nil
  | cons a as ih =>
    rcases hl with _ | ⟨ha, has⟩
    simp only [List.filterMap_cons]
    rcases hfa : f a with _ | x
    · exact ih has
    · refine List.Pairwise.cons ?_ (ih has)
      intro y hy
      obtain ⟨b, hb, hfb⟩ := List.mem_filterMap.mp hy
      exact hf a b (ha b hb) x hfa y hfb

/-- The trial as mutated by a successful iteration of the fallback loop
(lines 316-322): `semantic_score` set to the cosine similarity of the
query embedding and the trial-text embedding. -/
def fallbackScored (env : RankEnv) (qEmb : List ℚ) (t : Trial) : Trial :=
  { t with
    semantic_score :=
      some (env.cosine_similarity qEmb ((env.embed (trialText t)).getD [])) }

theorem fallbackProcess_frame (env : RankEnv) (qEmb : List ℚ)
    (cands : List Trial) :
    List.Forall₂ eqUpToScore cands (fallbackProcess env qEmb cands).1 := by
  induction cands with
  | nil => exact List.Forall₂.nil
  | cons t ts ih =>
    simp only [fallbackProcess]
    rcases h : env.embed (trialText t) with _ | e
    · simp only [h]
      exact forall₂_eqUpToScore_refl (t :: ts)
    · simp only [h]
      exact List.Forall₂.cons (eqUpToScore_setScore t _) ih

theorem fallbackProcess_success (env : RankEnv) (qEmb : List ℚ)
    (cands : List Trial)
    (hall : ∀ t ∈ cands, (env.embed (trialText t)).isSome) :
    fallbackProcess env qEmb cands = (cands.map (fallbackScored env qEmb), true) := by
  induction cands with
  | nil => rfl
  | cons t ts ih =>
    simp only [fallbackProcess]
    rcases h : env.embed (trialText t) with _ | e
    · have := hall t (List.mem_cons_self t ts)
      rw [h] at this
      simp at this
    · simp only [h, List.map_cons]
      rw [ih (fun t' ht' => hall t' (List.mem_cons_of_mem t ht'))]
      simp [fallbackScored, h]

theorem fallbackProcess_fail_state (env : RankEnv) (qEmb : List ℚ)
    (cands : List Trial) (hfail : (fallbackProcess env qEmb cands).2 = false) :
    ∃ pre suf, cands = pre ++ suf ∧
      (fallbackProcess env qEmb cands).1 =
        pre.map (fallbackScored env qEmb) ++ suf := by
  induction cands with
  | nil => simp [fallbackProcess] at hfail
  | cons t ts ih =>
    simp only [fallbackProcess] at hfail ⊢
    rcases h : env.embed (trialText t) with _ | e
    · simp only [h]
      exact ⟨[], t :: ts, rfl, rfl⟩
    · rw [h] at hfail
      simp only at hfail
      obtain ⟨pre, suf, hsplit, hstate⟩ := ih hfail
      refine ⟨t :: pre, suf, by rw [List.cons_append, ← hsplit], ?_⟩
      simp only [h, List.map_cons, List.cons_append, List.cons.injEq]
      exact ⟨by simp [fallbackScored, h], hstate⟩

theorem sortDescByScore_perm (l : List Trial) : (sortDescByScore l).Perm l :=
  perm_sortBy _ l

theorem sortDescByScore_sorted (l : List Trial) :
    scoresDescending (sortDescByScore l) := by
  have h := pairwise_sortBy (fun a b : Trial => decide (scoreKey b ≤ scoreKey a))
    (fun x y => by
      rcases le_total (scoreKey y) (scoreKey x) with h | h
      · simp [h]
      · simp [h])
    (fun x y z hxy hyz => by
      have h1 := of_decide_eq_true hxy
      have h2 := of_decide_eq_true hyz
      simpa using le_trans h2 h1)
    l
  exact h.imp (fun hab => of_decide_eq_true hab)

theorem scoresDescending_of_sublist {l₁ l₂ : List Trial}
    (hs : l₁.Sublist l₂) (h : scoresDescending l₂) : scoresDescending l₁ :=
  List.Pairwise.sublist hs h

theorem truncateTopK_sublist (top_k : Option Int) (l : List Trial) :
    (truncateTopK top_k l).Sublist l := by
  match top_k with
  | none => exact List.Sublist.refl l
  | some k =>
    simp only [truncateTopK]
    by_cases h : 0 < k
    · simp only [h, if_true]
      exact List.take_sublist k.toNat l
    · simp only [h, if_false]
      exact List.Sublist.refl l

theorem allScored_of_sublist {l₁ l₂ : List Trial}
    (hs : l₁.Sublist l₂) (h : allScored l₂) : allScored l₁ :=
  fun t ht => h t (hs.mem ht)

theorem rank_eq_primary (env : RankEnv) (cands : List Trial) (p : PatientData)
    (top_k : Option Int) (R : List (String × ℚ))
    (hne : cands ≠ [])
    (hcoll : env.collections.contains "clinical_trials" = true)
    (hget : env.getCollectionOk = true)
    (hres : getResults env (cands.map (fun t => t.trial_id)) = some R)
    (hRne : R ≠ []) :
    rank_matched_trials env cands p top_k = primaryProcess cands R top_k := by
  have h1 : cands.isEmpty = false := by
    cases cands with
    | nil => exact absurd rfl hne
    | cons a as => rfl
  have h2 : R.isEmpty = false := by
    cases R with
    | nil => exact absurd rfl hRne
    | cons a as => rfl
  have hmem : "clinical_trials" ∈ env.collections := by simpa using hcoll
  simp [rank_matched_trials, h1, hcoll, hget, hres, h2, hmem]

theorem rank_eq_fallback (env : RankEnv) (cands : List Trial) (p : PatientData)
    (top_k : Option Int)
    (hne : cands ≠ [])
    (hcoll : env.collections.contains "clinical_trials" = true)
    (hget : env.getCollectionOk = true)
    (hfb : fallbackTriggered env (cands.map (fun t => t.trial_id))) :
    rank_matched_trials env cands p top_k =
      fallbackRank env (rankQuery p) cands top_k := by
  have h1 : cands.isEmpty = false := by
    cases cands with
    | nil => exact absurd rfl hne
    | cons a as => rfl
  have hmem : "clinical_trials" ∈ env.collections := by simpa using hcoll
  rcases hfb with hfb | hfb
  · simp [rank_matched_trials, h1, hcoll, hget, hfb, hmem]
  · simp [rank_matched_trials, h1, hcoll, hget, hfb, hmem]

theorem mem_of_mem_filterMap_getElem (st : List Trial) (idxs : List Nat) :
    ∀ x ∈ idxs.filterMap (fun i => st[i]?), x ∈ st := by
  intro x hx
  obtain ⟨i, _, hget⟩ := List.mem_filterMap.mp hx
  exact List.getElem?_mem hget

/-! ### Claim theorems -/

/-- C1: for every patient whose age is a known integer and whose sex
maps to MALE or FEMALE, every trial returned by the structured filter
satisfies `(minimum_age is null or minimum_age <= A)`,
`(maximum_age is null or maximum_age >= A)` and
`(sex = mapped sex or sex = 'ALL')`. -/
theorem structured_filter_sound (trials : List Trial) (p : PatientData)
    (limit : Nat) (A : Int) (S : String)
    (hage : patientAge p = some A)
    (hsex : patientMappedSex p = some S) :
    ∀ t ∈ (match_patient_to_trials (some trials) p limit).1,
      (∀ m, t.minimum_age = some m → m ≤ A) ∧
      (∀ m, t.maximum_age = some m → A ≤ m) ∧
      (t.sex = S ∨ t.sex = "ALL") := by
  intro t ht
  have hres : (match_patient_to_trials (some trials) p limit).1
      = (trials.filter (trialPasses (patientAge p) (patientMappedSex p))).take limit := rfl
  rw [hres] at ht
  have hmem : t ∈ trials.filter (trialPasses (patientAge p) (patientMappedSex p)) :=
    (List.take_sublist _ _).mem ht
  have hpass := List.of_mem_filter hmem
  rw [hage, hsex] at hpass
  simp only [trialPasses, ageFilter, sexFilter, Bool.and_eq_true,
    Bool.or_eq_true, beq_iff_eq] at hpass
  obtain ⟨⟨hmin, hmax⟩, hsexp⟩ := hpass
  refine ⟨?_, ?_, hsexp⟩
  · intro m hm
    rw [hm] at hmin
    exact of_decide_eq_true hmin
  · intro m hm
    rw [hm] at hmax
    exact of_decide_eq_true hmax

def patC1 : PatientData :=
  { demographics := some { age := some 45, gender := some "M" },
    conditions := [], medications := [], labs := [], procedures := [],
    clinicalNotes := [], key_clinical_info_query := none }

def trialC1 : Trial :=
  { trial_id := "NCT0001", trial_title := "Hypertension study",
    minimum_age := some 18, maximum_age := some 65, sex := "ALL",
    accepts_healthy_volunteers := true, conditions := ["Hypertension"],
    interventions := [], semantic_score := none }

theorem structured_filter_sound_witness :
    patientAge patC1 = some 45 ∧ patientMappedSex patC1 = some "MALE" ∧
    trialC1 ∈ (match_patient_to_trials (some [trialC1]) patC1 1000).1 ∧
    ((∀ m, trialC1.minimum_age = some m → m ≤ 45) ∧
     (∀ m, trialC1.maximum_age = some m → 45 ≤ m) ∧
     (trialC1.sex = "MALE" ∨ trialC1.sex = "ALL")) :=
  ⟨by decide, by decide, by decide,
   structured_filter_sound [trialC1] patC1 1000 45 "MALE" (by decide) (by decide)
     trialC1 (by decide)⟩

/-- C2: an unknown age applies no age predicate, an unknown or
unmappable sex applies no sex predicate, and a patient with no
demographics at all passes every trial through the structured filter
(up to the result-size cap). -/
theorem structured_filter_permissive (trials : List Trial) (p : PatientData)
    (limit : Nat) :
    (patientAge p = none →
      (match_patient_to_trials (some trials) p limit).1
        = (trials.filter (sexFilter (patientMappedSex p))).take limit) ∧
    (patientMappedSex p = none →
      (match_patient_to_trials (some trials) p limit).1
        = (trials.filter (ageFilter (patientAge p))).take limit) ∧
    (patientAge p = none → patientMappedSex p = none →
      (match_patient_to_trials (some trials) p limit).1 = trials.take limit ∧
      (match_patient_to_trials (some trials) p limit).2 = trials.length) := by
  refine ⟨?_, ?_, ?_⟩
  · intro hage
    show (trials.filter (trialPasses (patientAge p) (patientMappedSex p))).take limit = _
    rw [hage]
    congr 1
  · intro hsex
    show (trials.filter (trialPasses (patientAge p) (patientMappedSex p))).take limit = _
    rw [hsex]
    congr 1
    apply List.filter_congr
    intro t _
    simp [trialPasses, sexFilter]
  · intro hage hsex
    constructor
    · show (trials.filter (trialPasses (patientAge p) (patientMappedSex p))).take limit = _
      rw [hage, hsex]
      congr 1
      simp [trialPasses, ageFilter, sexFilter]
    · show (trials.filter (trialPasses (patientAge p) (patientMappedSex p))).length = _
      rw [hage, hsex]
      simp [trialPasses, ageFilter, sexFilter]

def patC2 : PatientData :=
  { demographics := none,
    conditions := [], medications := [], labs := [], procedures := [],
    clinicalNotes := [], key_clinical_info_query := none }

def trialC2 : Trial :=
  { trial_id := "NCT0002", trial_title := "Male-only geriatric study",
    minimum_age := some 80, maximum_age := some 90, sex := "MALE",
    accepts_healthy_volunteers := false, conditions := [],
    interventions := [], semantic_score := none }

theorem structured_filter_permissive_witness :
    (match_patient_to_trials (some [trialC2]) patC2 1000).1 = [trialC2].take 1000 ∧
    (match_patient_to_trials (some [trialC2]) patC2 1000).2 = [trialC2].length :=
  (structured_filter_permissive [trialC2] patC2 1000).2.2 (by decide) (by decide)

/-- C3: `total_matches` equals the uncapped count of trials passing the
demographic predicates, is at least the number of returned candidates,
and is invariant under the result-size cap. -/
theorem total_matches_uncapped (trials : List Trial) (p : PatientData)
    (l l' : Nat) :
    (match_patient_to_trials (some trials) p l).2
      = (trials.filter (trialPasses (patientAge p) (patientMappedSex p))).length ∧
    (match_patient_to_trials (some trials) p l).1.length
      ≤ (match_patient_to_trials (some trials) p l).2 ∧
    (match_patient_to_trials (some trials) p l).2
      = (match_patient_to_trials (some trials) p l').2 := by
  refine ⟨rfl, ?_, rfl⟩
  show ((trials.filter _).take l).length ≤ (trials.filter _).length
  rw [List.length_take]
  exact min_le_right _ _

/-- C7: a missing database file makes `match_patient_to_trials` return
the empty candidate list and a zero total count (lines 30-32), and the
function is total — it does not raise to the caller. -/
theorem missing_store_empty_result (p : PatientData) (limit : Nat) :
    match_patient_to_trials none p limit = ([], 0) := rfl

/-- C9: `generate_semantic_search_query` is deterministic — two calls
on equal patient records yield the identical string. -/
theorem query_synthesizer_deterministic (p q : PatientData) (h : p = q) :
    generate_semantic_search_query p = generate_semantic_search_query q := by
  rw [h]

theorem query_synthesizer_deterministic_witness :
    generate_semantic_search_query patC1 = generate_semantic_search_query patC1 :=
  query_synthesizer_deterministic patC1 patC1 rfl

/-- A reference range the source cannot parse: empty or absent, no `-`
separator, or either side failing `float()` — exactly the conditions
under which lines 733-743 skip the lab (the `except: pass` branch). -/
def malformedRange (lab : LabRec) : Bool :=
  let ref_range := lab.referenceRange.getD ""
  ref_range = "" || !(strContainsChar ref_range '-') ||
  (match pySplitOn '-' ref_range with
   | p0 :: p1 :: _ =>
     (parseFloat (pyStrip p0)).isNone || (parseFloat (pyStrip p1)).isNone
   | _ => true)

theorem abnormalEntry_none_of_malformed (lab : LabRec)
    (h : malformedRange lab = true) : abnormalEntry lab = none := by
  unfold malformedRange at h
  unfold abnormalEntry
  rcases lab with ⟨name, value, unitName, referenceRange⟩
  rcases name with _ | n
  · rfl
  rcases value with _ | v
  · rfl
  simp only
  by_cases h1 : referenceRange.getD "" = ""
  · simp [h1]
  by_cases h2 : strContainsChar (referenceRange.getD "") '-'
  · simp only [h1, h2, Bool.not_true, Bool.false_or, Bool.or_false] at h
    simp only [h1, h2, ne_eq, not_false_iff, Bool.and_self, if_true]
    rcases hsplit : pySplitOn '-' (referenceRange.getD "") with _ | ⟨p0, rest⟩
    · rfl
    rcases rest with _ | ⟨p1, rest'⟩
    · rfl
    rw [hsplit] at h
    simp only at h
    rcases hp0 : parseFloat (pyStrip p0) with _ | q0
    · simp [hp0]
    rcases hp1 : parseFloat (pyStrip p1) with _ | q1
    · simp [hp0, hp1]
    rw [hp0, hp1] at h
    simp at h
  · have h2' : strContainsChar (referenceRange.getD "") '-' = false := by
      simpa using h2
    simp [h1, h2']

theorem length_filterMap_eq_countP {α β : Type} (f : α → Option β)
    (l : List α) :
    (l.filterMap f).length = l.countP (fun a => (f a).isSome) := by
  induction l with
  | nil => rfl
  | cons a as ih =>
    simp only [List.filterMap_cons, List.countP_cons]
    rcases h : f a with _ | b
    · simp [h, ih]
    · simp [h, ih]

/-- C8: the query synthesizer never raises on a malformed reference
range — such a lab contributes nothing to the query (removing it leaves
the query unchanged) — and the abnormal-lab clause is present exactly
when 1 or 2 labs have a value strictly outside their parsed range. -/
theorem abnormal_lab_clause_robust (p : PatientData) (lab : LabRec)
    (pre post : List LabRec)
    (hsplit : p.labs = pre ++ lab :: post)
    (hmal : malformedRange lab = true) :
    generate_semantic_search_query p =
      generate_semantic_search_query { p with labs := pre ++ post } ∧
    ((abnormalClause p.labs).isSome ↔
      1 ≤ p.labs.countP (fun l => (abnormalEntry l).isSome) ∧
      p.labs.countP (fun l => (abnormalEntry l).isSome) ≤ 2) := by
  have hentry := abnormalEntry_none_of_malformed lab hmal
  constructor
  · have hlabs : abnormal_labs p.labs = abnormal_labs (pre ++ post) := by
      rw [hsplit]
      simp [abnormal_labs, List.filterMap_append, List.filterMap_cons, hentry]
    simp only [generate_semantic_search_query, queryParts, abnormalClause]
    rw [hlabs]
  · rw [← length_filterMap_eq_countP abnormalEntry p.labs]
    show (abnormalClause p.labs).isSome ↔ _
    unfold abnormalClause abnormal_labs
    rcases hl : (p.labs.filterMap abnormalEntry).length with _ | n
    · rw [List.length_eq_zero] at hl
      simp [hl]
    · have hne : (p.labs.filterMap abnormalEntry).isEmpty = false := by
        rcases hfm : p.labs.filterMap abnormalEntry with _ | _
        · rw [hfm] at hl
          simp at hl
        · rfl
      by_cases hle : (p.labs.filterMap abnormalEntry).length ≤ 2
      · simp [hne, hle, hl]
      · simp [hne, hle, hl]

def labGlucose : LabRec :=
  { name := some "Glucose", value := some "120", unitName := some "mg/dL",
    referenceRange := some "70-99" }

def labNA : LabRec :=
  { name := some "HbA1c", value := some "5.0", unitName := some "%",
    referenceRange := some "n/a" }

def patC8 : PatientData :=
  { demographics := none, conditions := [], medications := [],
    labs := [labGlucose, labNA], procedures := [], clinicalNotes := [],
    key_clinical_info_query := none }

theorem abnormal_lab_clause_robust_witness :
    patC8.labs = [labGlucose] ++ labNA :: [] ∧
    malformedRange labNA = true ∧
    (generate_semantic_search_query patC8 =
      generate_semantic_search_query { patC8 with labs := [labGlucose] ++ [] } ∧
    ((abnormalClause patC8.labs).isSome ↔
      1 ≤ patC8.labs.countP (fun l => (abnormalEntry l).isSome) ∧
      patC8.labs.countP (fun l => (abnormalEntry l).isSome) ≤ 2)) :=
  ⟨by decide, by decide,
   abnormal_lab_clause_robust patC8 labNA [labGlucose] [] (by decide) (by decide)⟩

theorem rank_nil (env : RankEnv) (p : PatientData) (top_k : Option Int) :
    rank_matched_trials env [] p top_k = ([], []) := rfl

theorem rank_unreachable (env : RankEnv) (cands : List Trial) (p : PatientData)
    (top_k : Option Int) (hne : cands ≠ [])
    (h : env.collections.contains "clinical_trials" = false ∨
      env.getCollectionOk = false) :
    rank_matched_trials env cands p top_k = (cands, cands) := by
  have h1 : cands.isEmpty = false := by
    cases cands with
    | nil => exact absurd rfl hne
    | cons a as => rfl
  rcases h with h | h
  · have hnm : "clinical_trials" ∉ env.collections := by simpa using h
    simp [rank_matched_trials, h1, h, hnm]
  · by_cases h2 : env.collections.contains "clinical_trials"
    · have hmem : "clinical_trials" ∈ env.collections := by simpa using h2
      simp [rank_matched_trials, h1, h2, h, hmem]
    · have hnm : "clinical_trials" ∉ env.collections := by simpa using h2
      have h2' : env.collections.contains "clinical_trials" = false := by
        simpa using h2
      simp [rank_matched_trials, h1, h2', hnm]

theorem fallbackRank_state_frame (env : RankEnv) (q : String)
    (cands : List Trial) (top_k : Option Int) :
    List.Forall₂ eqUpToScore cands (fallbackRank env q cands top_k).1 := by
  unfold fallbackRank
  rcases h : env.embed q with _ | qEmb
  · exact forall₂_eqUpToScore_refl cands
  · simp only
    by_cases h2 : (fallbackProcess env qEmb cands).2
    · simp only [h2, if_true]
      exact fallbackProcess_frame env qEmb cands
    · simp only [h2]
      exact fallbackProcess_frame env qEmb cands

theorem fallbackRank_returned_mem (env : RankEnv) (q : String)
    (cands : List Trial) (top_k : Option Int) :
    ∀ t ∈ (fallbackRank env q cands top_k).2,
      t ∈ (fallbackRank env q cands top_k).1 := by
  unfold fallbackRank
  rcases h : env.embed q with _ | qEmb
  · intro t ht; exact ht
  · simp only
    by_cases h2 : (fallbackProcess env qEmb cands).2
    · simp only [h2, if_true]
      intro t ht
      have h3 := (truncateTopK_sublist top_k _).mem ht
      exact (sortDescByScore_perm _).mem_iff.mp h3
    · simp only [h2]
      intro t ht; exact ht

theorem rank_state_frame (env : RankEnv) (cands : List Trial) (p : PatientData)
    (top_k : Option Int) :
    List.Forall₂ eqUpToScore cands (rank_matched_trials env cands p top_k).1 := by
  rcases hc : cands with _ | ⟨t, ts⟩
  · rw [rank_nil]
    exact List.Forall₂.nil
  rw [← hc]
  have hne : cands ≠ [] := by rw [hc]; exact List.cons_ne_nil t ts
  by_cases h2 : env.collections.contains "clinical_trials"
  · by_cases h3 : env.getCollectionOk
    · rcases hres : getResults env (cands.map (fun t => t.trial_id)) with _ | R
      · rw [rank_eq_fallback env cands p top_k hne h2 h3 (Or.inl hres)]
        exact fallbackRank_state_frame env _ cands top_k
      · by_cases hR : R = []
        · rw [rank_eq_fallback env cands p top_k hne h2 h3
            (Or.inr (by rw [hres, hR]))]
          exact fallbackRank_state_frame env _ cands top_k
        · rw [rank_eq_primary env cands p top_k R hne h2 h3 hres hR]
          exact primaryLoop_frame cands R cands (forall₂_eqUpToScore_refl cands)
    · have h3' : env.getCollectionOk = false := by simpa using h3
      rw [rank_unreachable env cands p top_k hne (Or.inr h3')]
      exact forall₂_eqUpToScore_refl cands
  · have h2' : env.collections.contains "clinical_trials" = false := by
      simpa using h2
    rw [rank_unreachable env cands p top_k hne (Or.inl h2')]
    exact forall₂_eqUpToScore_refl cands

theorem rank_returned_mem (env : RankEnv) (cands : List Trial) (p : PatientData)
    (top_k : Option Int) :
    ∀ t ∈ (rank_matched_trials env cands p top_k).2,
      t ∈ (rank_matched_trials env cands p top_k).1 := by
  rcases hc : cands with _ | ⟨c, cs⟩
  · rw [rank_nil]
    intro t ht
    simp at ht
  rw [← hc]
  have hne : cands ≠ [] := by rw [hc]; exact List.cons_ne_nil c cs
  by_cases h2 : env.collections.contains "clinical_trials"
  · by_cases h3 : env.getCollectionOk
    · rcases hres : getResults env (cands.map (fun t => t.trial_id)) with _ | R
      · rw [rank_eq_fallback env cands p top_k hne h2 h3 (Or.inl hres)]
        exact fallbackRank_returned_mem env _ cands top_k
      · by_cases hR : R = []
        · rw [rank_eq_fallback env cands p top_k hne h2 h3
            (Or.inr (by rw [hres, hR]))]
          exact fallbackRank_returned_mem env _ cands top_k
        · rw [rank_eq_primary env cands p top_k R hne h2 h3 hres hR]
          intro t ht
          have h4 := (truncateTopK_sublist top_k _).mem ht
          exact mem_of_mem_filterMap_getElem _ _ t h4
    · have h3' : env.getCollectionOk = false := by simpa using h3
      rw [rank_unreachable env cands p top_k hne (Or.inr h3')]
      intro t ht; exact ht
  · have h2' : env.collections.contains "clinical_trials" = false := by
      simpa using h2
    rw [rank_unreachable env cands p top_k hne (Or.inl h2')]
    intro t ht; exact ht

def t1C10 : Trial :=
  { trial_id := "A", trial_title := "TA", minimum_age := none,
    maximum_age := none, sex := "ALL", accepts_healthy_volunteers := true,
    conditions := [], interventions := [], semantic_score := none }

def t2C10 : Trial :=
  { trial_id := "B", trial_title := "TB", minimum_age := none,
    maximum_age := none, sex := "ALL", accepts_healthy_volunteers := true,
    conditions := [], interventions := [], semantic_score := none }

def patC10 : PatientData :=
  { demographics := none, conditions := [], medications := [], labs := [],
    procedures := [], clinicalNotes := [],
    key_clinical_info_query := some "q" }

/-- Both index queries return empty, the query embedding and the first
trial embedding succeed, the second trial embedding raises. -/
def envC10 : RankEnv :=
  { collections := ["clinical_trials"], getCollectionOk := true,
    restricted := some [], unrestricted := some [],
    embed := fun s => if s = "TB " then none else some [1],
    cosine_similarity := fun _ _ => 1 }

/-- C10: `rank_matched_trials` annotates candidates by mutating the
caller's dictionaries in place — the final contents of the caller's
list differ from the input only in `semantic_score`, every returned
trial is one of those very objects — and after a degraded
partial-fallback return some input candidates already carry a
`semantic_score` key. -/
theorem rank_mutates_in_place :
    (∀ (env : RankEnv) (cands : List Trial) (p : PatientData)
        (top_k : Option Int),
      List.Forall₂ eqUpToScore cands (rank_matched_trials env cands p top_k).1 ∧
      ∀ t ∈ (rank_matched_trials env cands p top_k).2,
        t ∈ (rank_matched_trials env cands p top_k).1) ∧
    ((rank_matched_trials envC10 [t1C10, t2C10] patC10 none).2
        = (rank_matched_trials envC10 [t1C10, t2C10] patC10 none).1 ∧
      ∃ t ∈ (rank_matched_trials envC10 [t1C10, t2C10] patC10 none).2,
        t.semantic_score.isSome) :=
  ⟨fun env cands p top_k =>
    ⟨rank_state_frame env cands p top_k, rank_returned_mem env cands p top_k⟩,
   by decide, by decide⟩

theorem rankedEntry_spec (cands : List Trial) (pr : String × ℚ) (x : Trial)
    (h : rankedEntry cands pr = some x) :
    x.semantic_score = some (1 - pr.2) := by
  rcases h1 : dictIdx cands pr.1 with _ | i
  · rw [rankedEntry, h1] at h
    simp at h
  · rcases h2 : cands[i]? with _ | t0
    · rw [rankedEntry, h1] at h
      simp [h2] at h
    · rw [rankedEntry, h1] at h
      simp only [h2, Option.some.injEq] at h
      rw [← h]

theorem fallbackProcess_of_ok (env : RankEnv) (qEmb : List ℚ)
    (cands : List Trial) (hok : (fallbackProcess env qEmb cands).2 = true) :
    fallbackProcess env qEmb cands = (cands.map (fallbackScored env qEmb), true) := by
  apply fallbackProcess_success
  intro t ht
  induction cands with
  | nil => simp at ht
  | cons c cs ih =>
    rcases List.mem_cons.mp ht with h1 | h2
    · subst h1
      simp only [fallbackProcess] at hok
      rcases hc : env.embed (trialText t) with _ | e
      · rw [hc] at hok
        simp at hok
      · simp [hc]
    · simp only [fallbackProcess] at hok
      rcases hc : env.embed (trialText c) with _ | e
      · rw [hc] at hok
        simp at hok
      · rw [hc] at hok
        simp only at hok
        exact ih hok h2

theorem allScored_of_perm {l₁ l₂ : List Trial} (hp : l₁.Perm l₂)
    (h : allScored l₂) : allScored l₁ :=
  fun t ht => h t (hp.mem_iff.mp ht)

theorem allScored_map_fallbackScored (env : RankEnv) (qEmb : List ℚ)
    (cands : List Trial) : allScored (cands.map (fallbackScored env qEmb)) := by
  intro t ht
  obtain ⟨c, _, hc⟩ := List.mem_map.mp ht
  rw [← hc]
  rfl

/-- C4 (amended): whenever the primary path runs on index results with
ascending distances and distinct ids, or the fallback path completes,
the returned list is fully annotated with `semantic_score` (primary
path: `1 - distance`) in non-increasing score order; a positive `top_k`
truncates the ranked list and a null or non-positive `top_k` applies no
truncation; the primary path returns exactly the candidates matched in
the index results. -/
theorem rank_output_contract (env : RankEnv) (cands : List Trial)
    (p : PatientData) (k : Int)
    (hne : cands ≠ [])
    (hcoll : env.collections.contains "clinical_trials" = true)
    (hget : env.getCollectionOk = true)
    (hcase :
      (∃ R, getResults env (cands.map (fun t => t.trial_id)) = some R ∧
        R ≠ [] ∧ R.Pairwise (fun a b => a.2 ≤ b.2) ∧
        (R.map Prod.fst).Nodup) ∨
      (fallbackTriggered env (cands.map (fun t => t.trial_id)) ∧
        fallbackOk env (rankQuery p) cands = true)) :
    (allScored (rank_matched_trials env cands p (some k)).2 ∧
     scoresDescending (rank_matched_trials env cands p (some k)).2) ∧
    (allScored (rank_matched_trials env cands p none).2 ∧
     scoresDescending (rank_matched_trials env cands p none).2) ∧
    ((rank_matched_trials env cands p (some k)).2 =
      if 0 < k then ((rank_matched_trials env cands p none).2).take k.toNat
      else (rank_matched_trials env cands p none).2) ∧
    (∀ R, getResults env (cands.map (fun t => t.trial_id)) = some R → R ≠ [] →
      (R.map Prod.fst).Nodup →
      (rank_matched_trials env cands p none).2 =
        R.filterMap (rankedEntry cands)) := by
  have hbase : ∀ R, getResults env (cands.map (fun t => t.trial_id)) = some R →
      R ≠ [] → (R.map Prod.fst).Nodup →
      (rank_matched_trials env cands p none).2 = R.filterMap (rankedEntry cands) := by
    intro R hres hRne hnodup
    rw [rank_eq_primary env cands p none R hne hcoll hget hres hRne]
    show truncateTopK none _ = _
    simp only [truncateTopK]
    exact primaryLoop_char cands R cands hnodup rfl
  rcases hcase with ⟨R, hres, hRne, hsorted, hnodup⟩ | ⟨hfb, hok⟩
  · have hkey : ∀ tk, (rank_matched_trials env cands p tk).2
        = truncateTopK tk (R.filterMap (rankedEntry cands)) := by
      intro tk
      rw [rank_eq_primary env cands p tk R hne hcoll hget hres hRne]
      show truncateTopK tk ((primaryLoop cands R cands).2.filterMap _) = _
      rw [primaryLoop_char cands R cands hnodup rfl]
    have hscored : allScored (R.filterMap (rankedEntry cands)) := by
      intro t ht
      obtain ⟨pr, _, hpr⟩ := List.mem_filterMap.mp ht
      rw [rankedEntry_spec cands pr t hpr]
      rfl
    have hdesc : scoresDescending (R.filterMap (rankedEntry cands)) := by
      apply pairwise_filterMap_of_pairwise (rankedEntry cands) hsorted
      intro a b hab x hx y hy
      rw [scoreKey, scoreKey, rankedEntry_spec cands a x hx,
        rankedEntry_spec cands b y hy]
      simp only [Option.getD_some]
      exact sub_le_sub_left hab 1
    refine ⟨⟨?_, ?_⟩, ⟨?_, ?_⟩, ?_, hbase⟩
    · rw [hkey (some k)]
      exact allScored_of_sublist (truncateTopK_sublist _ _) hscored
    · rw [hkey (some k)]
      exact scoresDescending_of_sublist (truncateTopK_sublist _ _) hdesc
    · rw [hkey none]
      exact hscored
    · rw [hkey none]
      exact hdesc
    · rw [hkey (some k), hkey none]
      rfl
  · rcases hq : env.embed (rankQuery p) with _ | qEmb
    · rw [fallbackOk, hq] at hok
      simp at hok
    · rw [fallbackOk, hq] at hok
      have hproc := fallbackProcess_of_ok env qEmb cands hok
      have hkey : ∀ tk, (rank_matched_trials env cands p tk).2
          = truncateTopK tk
              (sortDescByScore (cands.map (fallbackScored env qEmb))) := by
        intro tk
        rw [rank_eq_fallback env cands p tk hne hcoll hget hfb]
        unfold fallbackRank
        rw [hq]
        simp [hproc]
      have hscored : allScored
          (sortDescByScore (cands.map (fallbackScored env qEmb))) :=
        allScored_of_perm (sortDescByScore_perm _)
          (allScored_map_fallbackScored env qEmb cands)
      refine ⟨⟨?_, ?_⟩, ⟨?_, ?_⟩, ?_, hbase⟩
      · rw [hkey (some k)]
        exact allScored_of_sublist (truncateTopK_sublist _ _) hscored
      · rw [hkey (some k)]
        exact scoresDescending_of_sublist (truncateTopK_sublist _ _)
          (sortDescByScore_sorted _)
      · rw [hkey none]
        exact hscored
      · rw [hkey none]
        exact sortDescByScore_sorted _
      · rw [hkey (some k), hkey none]
        rfl

def tAC4 : Trial :=
  { trial_id := "A", trial_title := "TA", minimum_age := none,
    maximum_age := none, sex := "ALL", accepts_healthy_volunteers := true,
    conditions := [], interventions := [], semantic_score := none }

def tBC4 : Trial :=
  { tAC4 with trial_id := "B", trial_title := "TB" }

def patC4 : PatientData :=
  { demographics := none, conditions := [], medications := [], labs := [],
    procedures := [], clinicalNotes := [],
    key_clinical_info_query := some "q" }

/-- Restricted query succeeds with both candidates, distances ascending. -/
def envC4 : RankEnv :=
  { collections := ["clinical_trials"], getCollectionOk := true,
    restricted := some [("A", 0), ("B", 1)], unrestricted := some [],
    embed := fun _ => some [1], cosine_similarity := fun _ _ => 0 }

/-- Restricted query succeeds but returns only one of two candidates. -/
def envC4b : RankEnv :=
  { envC4 with restricted := some [("A", 0)] }

/-- C4 counterexample: `top_k = 0` is a specified top_k, yet the code
returns both results instead of truncating to 0 (line 295 truncates
only when `top_k > 0`); and with a null top_k the primary path returns
only the candidates present in the index results — 1 of 2 — not all
candidates. -/
theorem rank_output_contract_counterexample :
    (rank_matched_trials envC4 [tAC4, tBC4] patC4 (some 0)).2.length = 2 ∧
    (rank_matched_trials envC4b [tAC4, tBC4] patC4 none).2.length = 1 :=
  ⟨rfl, rfl⟩

theorem rank_output_contract_witness :
    (allScored (rank_matched_trials envC4 [tAC4, tBC4] patC4 (some 1)).2 ∧
     scoresDescending (rank_matched_trials envC4 [tAC4, tBC4] patC4 (some 1)).2) ∧
    (allScored (rank_matched_trials envC4 [tAC4, tBC4] patC4 none).2 ∧
     scoresDescending (rank_matched_trials envC4 [tAC4, tBC4] patC4 none).2) ∧
    ((rank_matched_trials envC4 [tAC4, tBC4] patC4 (some 1)).2 =
      if 0 < (1 : Int) then
        ((rank_matched_trials envC4 [tAC4, tBC4] patC4 none).2).take (1 : Int).toNat
      else (rank_matched_trials envC4 [tAC4, tBC4] patC4 none).2) ∧
    (∀ R, getResults envC4 ([tAC4, tBC4].map (fun t => t.trial_id)) = some R →
      R ≠ [] → (R.map Prod.fst).Nodup →
      (rank_matched_trials envC4 [tAC4, tBC4] patC4 none).2 =
        R.filterMap (rankedEntry [tAC4, tBC4])) :=
  rank_output_contract envC4 [tAC4, tBC4] patC4 1 (by decide) (by decide)
    (by decide)
    (Or.inl ⟨[("A", 0), ("B", 1)], by decide, by decide, by decide, by decide⟩)

def tC5 : Trial :=
  { trial_id := "A", trial_title := "TA", minimum_age := some 18,
    maximum_age := some 65, sex := "ALL", accepts_healthy_volunteers := true,
    conditions := ["Hypertension"], interventions := [],
    semantic_score := none }

def patC5 : PatientData :=
  { demographics := some { age := some 45, gender := some "M" },
    conditions := [{ name := some "Hypertension", onsetDate := some "2020" }],
    medications := [], labs := [], procedures := [], clinicalNotes := [],
    key_clinical_info_query := none }

/-- The `clinical_trials` collection does not exist; the embedding
collaborator works fine. -/
def envC5x : RankEnv :=
  { collections := [], getCollectionOk := true, restricted := some [],
    unrestricted := some [], embed := fun _ => some [1],
    cosine_similarity := fun _ _ => 1 }

/-- C5 counterexample: with the vector index unreachable (the
collection missing), the code returns the candidates unranked and
unscored at line 196 — the fallback path does not run, no embedding is
computed, and the returned candidate carries no `semantic_score`. -/
theorem rank_fallback_path_counterexample :
    rank_matched_trials envC5x [tC5] patC5 none = ([tC5], [tC5]) ∧
    tC5.semantic_score = none :=
  ⟨rfl, rfl⟩

/-- C5 (amended): when the collection opens but the restricted and
unrestricted queries fail or return no results, the ranker takes the
fallback path: it embeds the query, scores every candidate by cosine
similarity of the query embedding against the embedding of
`"<trial_title> <joined conditions>"`, and returns all candidates
scored and sorted descending; when the collection is missing the
original list is returned unranked instead. -/
theorem rank_fallback_path (env : RankEnv) (cands : List Trial)
    (p : PatientData) (qEmb : List ℚ)
    (hne : cands ≠ [])
    (hget : env.getCollectionOk = true)
    (hfb : fallbackTriggered env (cands.map (fun t => t.trial_id)))
    (hq : env.embed (rankQuery p) = some qEmb)
    (hall : ∀ t ∈ cands, (env.embed (trialText t)).isSome) :
    (env.collections.contains "clinical_trials" = true →
      (rank_matched_trials env cands p none).1
          = cands.map (fallbackScored env qEmb) ∧
      (rank_matched_trials env cands p none).2
          = sortDescByScore (cands.map (fallbackScored env qEmb)) ∧
      ((rank_matched_trials env cands p none).2).Perm
          (cands.map (fallbackScored env qEmb)) ∧
      scoresDescending (rank_matched_trials env cands p none).2) ∧
    (env.collections.contains "clinical_trials" = false →
      rank_matched_trials env cands p none = (cands, cands)) := by
  constructor
  · intro hcoll
    rw [rank_eq_fallback env cands p none hne hcoll hget hfb]
    unfold fallbackRank
    simp only [hq, fallbackProcess_success env qEmb cands hall, if_true]
    refine ⟨trivial, rfl, ?_, ?_⟩
    · exact sortDescByScore_perm _
    · exact sortDescByScore_sorted _
  · intro hcoll
    exact rank_unreachable env cands p none hne (Or.inl hcoll)

def tC5a : Trial :=
  { trial_id := "A", trial_title := "TA", minimum_age := none,
    maximum_age := none, sex := "ALL", accepts_healthy_volunteers := true,
    conditions := ["Hypertension"], interventions := [],
    semantic_score := none }

def tC5b : Trial :=
  { tC5a with trial_id := "B", trial_title := "TB" }

def tC5c : Trial :=
  { tC5a with trial_id := "C", trial_title := "TC" }

/-- Collection present; both queries return no results; embeddings and
similarity all succeed. -/
def envC5 : RankEnv :=
  { collections := ["clinical_trials"], getCollectionOk := true,
    restricted := some [], unrestricted := some [],
    embed := fun _ => some [1], cosine_similarity := fun _ _ => 1 }

theorem rank_fallback_path_witness :
    (rank_matched_trials envC5 [tC5a, tC5b, tC5c] patC5 none).1
        = [tC5a, tC5b, tC5c].map (fallbackScored envC5 [1]) ∧
    (rank_matched_trials envC5 [tC5a, tC5b, tC5c] patC5 none).2
        = sortDescByScore ([tC5a, tC5b, tC5c].map (fallbackScored envC5 [1])) ∧
    ((rank_matched_trials envC5 [tC5a, tC5b, tC5c] patC5 none).2).Perm
        ([tC5a, tC5b, tC5c].map (fallbackScored envC5 [1])) ∧
    scoresDescending (rank_matched_trials envC5 [tC5a, tC5b, tC5c] patC5 none).2 :=
  (rank_fallback_path envC5 [tC5a, tC5b, tC5c] patC5 [1] (by decide) (by decide)
    (Or.inr (by decide)) (by decide) (by decide)).1 (by decide)

def t1C6 : Trial :=
  { trial_id := "A", trial_title := "TA", minimum_age := none,
    maximum_age := none, sex := "ALL", accepts_healthy_volunteers := true,
    conditions := [], interventions := [], semantic_score := none }

def t2C6 : Trial :=
  { t1C6 with trial_id := "B", trial_title := "TB" }

def patC6 : PatientData :=
  { demographics := none, conditions := [], medications := [], labs := [],
    procedures := [], clinicalNotes := [],
    key_clinical_info_query := some "q" }

/-- Fallback triggered; the query and first trial embed fine, the
second trial's embedding call raises. -/
def envC6 : RankEnv :=
  { collections := ["clinical_trials"], getCollectionOk := true,
    restricted := some [], unrestricted := some [],
    embed := fun s => if s = "TB " then none else some [1],
    cosine_similarity := fun _ _ => 1 }

/-- C6 counterexample: the fallback fails at the second candidate's
embedding call; the degraded return (line 338) still carries the first
candidate's in-place `semantic_score` mutation, contradicting "no
candidate carries a semantic_score annotation". -/
theorem rank_fallback_failure_counterexample :
    (rank_matched_trials envC6 [t1C6, t2C6] patC6 none).2
      = [{ t1C6 with semantic_score := some 1 }, t2C6] ∧
    ∃ t ∈ (rank_matched_trials envC6 [t1C6, t2C6] patC6 none).2,
      t.semantic_score.isSome :=
  ⟨rfl, by decide⟩

/-- C6 (amended): if the fallback path itself fails, the error is
caught and the candidate list is returned in its original order,
unranked, rather than raising; candidates processed before the failure
keep their in-place `semantic_score` annotation, and when the failure
precedes all scoring (the query embedding raises) the list is returned
exactly as passed in, with no candidate scored by the call. -/
theorem rank_fallback_failure_degrades (env : RankEnv) (cands : List Trial)
    (p : PatientData) (top_k : Option Int)
    (hne : cands ≠ [])
    (hcoll : env.collections.contains "clinical_trials" = true)
    (hget : env.getCollectionOk = true)
    (hfb : fallbackTriggered env (cands.map (fun t => t.trial_id)))
    (hfail : fallbackOk env (rankQuery p) cands = false) :
    (rank_matched_trials env cands p top_k).2
      = (rank_matched_trials env cands p top_k).1 ∧
    List.Forall₂ eqUpToScore cands (rank_matched_trials env cands p top_k).2 ∧
    (env.embed (rankQuery p) = none →
      rank_matched_trials env cands p top_k = (cands, cands)) := by
  rw [rank_eq_fallback env cands p top_k hne hcoll hget hfb]
  unfold fallbackRank
  rcases hq : env.embed (rankQuery p) with _ | qEmb
  · simp only [hq]
    exact ⟨trivial, forall₂_eqUpToScore_refl cands, fun _ => trivial⟩
  · simp only [fallbackOk, hq] at hfail
    simp only [hq, hfail, Bool.false_eq_true, if_false]
    refine ⟨trivial, fallbackProcess_frame env qEmb cands, ?_⟩
    intro hcon
    exact absurd hcon (by simp)

theorem rank_fallback_failure_degrades_witness :
    (rank_matched_trials envC6 [t1C6, t2C6] patC6 (some 1)).2
      = (rank_matched_trials envC6 [t1C6, t2C6] patC6 (some 1)).1 ∧
    List.Forall₂ eqUpToScore [t1C6, t2C6]
      (rank_matched_trials envC6 [t1C6, t2C6] patC6 (some 1)).2 ∧
    (envC6.embed (rankQuery patC6) = none →
      rank_matched_trials envC6 [t1C6, t2C6] patC6 (some 1)
        = ([t1C6, t2C6], [t1C6, t2C6])) :=
  rank_fallback_failure_degrades envC6 [t1C6, t2C6] patC6 (some 1) (by decide)
    (by decide) (by decide) (Or.inr (by decide)) (by decide)

theorem rank_mutates_in_place_witness :
    List.Forall₂ eqUpToScore [t1C10, t2C10]
      (rank_matched_trials envC10 [t1C10, t2C10] patC10 none).1 ∧
    ∀ t ∈ (rank_matched_trials envC10 [t1C10, t2C10] patC10 none).2,
      t ∈ (rank_matched_trials envC10 [t1C10, t2C10] patC10 none).1 :=
  rank_mutates_in_place.1 envC10 [t1C10, t2C10] patC10 none
